import Mathlib

/-!
Shallow embedding of `minecraftwifi.ino`: a polling loop that fetches a
Minecraft-status JSON payload over HTTP, extracts the balanced top-level
brace-delimited object from the raw response stream, parses it, and drives
one LED per tracked player, remembering each player's online state across
cycles so that join/leave transitions get their own colors.

Pure logic (brace-depth extraction, retry/poll budgets, roster
reconciliation, transition colors) is translated directly from the source.
External collaborators (WiFi transport, the ArduinoJson deserializer, the
NeoPixel strip) are modelled as inputs: connection attempts and
availability polls are boolean-valued functions of the attempt index, the
response body is a list of characters, and the JSON deserializer is a
caller-supplied function into a small JSON value type.
-/

namespace MinecraftWifi

/-! ## Constants (minecraftwifi.ino lines 42-60) -/

def MAX_JSON_SIZE : Nat := 1024
def CONNECTION_RETRIES : Nat := 3
def MAX_RESPONSE_WAIT_TIME_MS : Nat := 30000
def RESPONSE_WAIT_INTERVAL_MS : Nat := 100

/-- `Adafruit_NeoPixel::Color(r, g, b)`: pack three 8-bit channels into a
32-bit word `(r << 16) | (g << 8) | b`; since the shifted fields are
disjoint, the bitwise ors are exactly this arithmetic. -/
def neoColor (r g b : Nat) : Nat :=
  (r % 256) * 65536 + (g % 256) * 256 + (b % 256)

def COLOR_OFF : Nat := neoColor 0 0 0
def COLOR_ERROR : Nat := neoColor 255 0 0
def COLOR_ONLINE : Nat := neoColor 200 200 200
def COLOR_JOINED : Nat := neoColor 10 100 200
def COLOR_LEFT : Nat := neoColor 255 10 10

/-- The characters `{` and `}`, written by code point to keep the brace
handling explicit. -/
def openBrace : Char := Char.ofNat 123

def closeBrace : Char := Char.ofNat 125

/-! ## PlayerLed (minecraftwifi.ino lines 66-119) -/

/-- One roster slot: a tracked player name (empty string means wildcard)
plus the online flag of the previous cycle and of the current cycle. -/
structure PlayerLed where
  name : String
  wasOnline : Bool
  isOnline : Bool
deriving DecidableEq

/-- `strlen(name) == 0 || strcmp(str, name) == 0`. -/
def PlayerLed.matches (p : PlayerLed) (str : String) : Bool :=
  p.name.length == 0 || str == p.name

def PlayerLed.clearOnline (p : PlayerLed) : PlayerLed :=
  { p with isOnline := false }

def PlayerLed.setOnline (p : PlayerLed) : PlayerLed :=
  { p with isOnline := true }

/-- Derive the LED color from `(wasOnline, isOnline)`, then commit
`wasOnline := isOnline` (minecraftwifi.ino lines 101-118). The Serial
prints are side effects with no bearing on state. -/
def PlayerLed.getColorAndUpdate (p : PlayerLed) : Nat × PlayerLed :=
  let color : Nat :=
    if p.wasOnline && p.isOnline then COLOR_ONLINE
    else if p.wasOnline && !p.isOnline then COLOR_LEFT
    else if !p.wasOnline && p.isOnline then COLOR_JOINED
    else COLOR_OFF
  (color, { p with wasOnline := p.isOnline })

/-- The spec's transition table — SteadyPresent, JustLeft, JustJoined, Off —
written with the sketch's color constants. -/
def transitionColor : Bool → Bool → Nat
  | true, true => COLOR_ONLINE
  | true, false => COLOR_LEFT
  | false, true => COLOR_JOINED
  | false, false => COLOR_OFF

/-! ## JSON values and the ServerStatus record -/

/-- A small JSON value type, the shape ArduinoJson's document exposes.
The deserializer itself is an external library; models of the pipeline
take the parse step as a caller-supplied function into this type. -/
inductive Json : Type where
  | jnull : Json
  | jbool : Bool → Json
  | jnum : Int → Json
  | jstr : String → Json
  | jarr : List Json → Json
  | jobj : List (String × Json) → Json

/-- `doc[key]` on an object: first binding for the key, none otherwise.
Indexing a non-object yields the null variant. -/
def Json.lookup : Json → String → Option Json
  | .jobj fields, key => fields.lookup key
  | _, _ => none

/-- ArduinoJson converts a missing or non-integer variant to `long` 0. -/
def Json.asInt : Option Json → Int
  | some (.jnum n) => n
  | _ => 0

/-- ArduinoJson converts a missing or non-array variant to a null
`JsonArray` of size 0. -/
def Json.asArr : Option Json → List Json
  | some (.jarr xs) => xs
  | _ => []

/-- `struct ServerStatus` (minecraftwifi.ino lines 179-191); the
constructor leaves `playersSample` bound to the empty array. -/
structure ServerStatus where
  error : Bool
  numOnline : Int
  playersSample : List Json

/-- `ServerStatus::ofError()` = `ServerStatus(true, 0)`. -/
def ServerStatus.ofError : ServerStatus :=
  { error := true, numOnline := 0, playersSample := [] }

/-! ## Brace-depth extraction (minecraftwifi.ino lines 235-255)

`extractLoop` is the byte loop, instrumented with the list of buffer
indices written (`jsonBuffer[jsonBufferPos++] = b` writes at the old
position). The first component is `none` exactly when the loop bailed out
with "Ran out of room for JSON" (BufferOverflow). -/

def extractLoop : List Char → Int → List Char → List Nat →
    Option (List Char) × List Nat
  | [], _, buf, writes => (some buf, writes)
  | b :: rest, inBraces, buf, writes =>
    let d : Int := if b = openBrace then inBraces + 1 else inBraces
    if d ≠ 0 then
      let writes1 := writes ++ [buf.length]
      let buf1 := buf ++ [b]
      if MAX_JSON_SIZE ≤ buf1.length then (none, writes1)
      else extractLoop rest (if b = closeBrace then d - 1 else d) buf1 writes1
    else
      extractLoop rest (if b = closeBrace then d - 1 else d) buf writes

def extract (stream : List Char) : Option (List Char) × List Nat :=
  extractLoop stream 0 [] []

/-- How many bytes the loop would append were the buffer unbounded; used to
say when a payload "would exceed capacity". -/
def appendCount : List Char → Int → Nat
  | [], _ => 0
  | b :: rest, inBraces =>
    let d : Int := if b = openBrace then inBraces + 1 else inBraces
    (if d ≠ 0 then 1 else 0) + appendCount rest (if b = closeBrace then d - 1 else d)

/-- Modelled from the spec: the extraction loop exactly as §4.2 words it,
appending a byte when `depth > 0` at the check point. Kept separate from
`extractLoop` (the code) so the two can be compared. -/
def specExtractGt : List Char → Int → List Char → Option (List Char)
  | [], _, buf => some buf
  | b :: rest, depth, buf =>
    let d : Int := if b = openBrace then depth + 1 else depth
    if 0 < d then
      let buf1 := buf ++ [b]
      if MAX_JSON_SIZE ≤ buf1.length then none
      else specExtractGt rest (if b = closeBrace then d - 1 else d) buf1
    else specExtractGt rest (if b = closeBrace then d - 1 else d) buf

/-- The same spec-level loop with the append condition amended to
`depth ≠ 0`, which is what `if (inBraces)` tests. -/
def specExtractNe : List Char → Int → List Char → Option (List Char)
  | [], _, buf => some buf
  | b :: rest, depth, buf =>
    let d : Int := if b = openBrace then depth + 1 else depth
    if d ≠ 0 then
      let buf1 := buf ++ [b]
      if MAX_JSON_SIZE ≤ buf1.length then none
      else specExtractNe rest (if b = closeBrace then d - 1 else d) buf1
    else specExtractNe rest (if b = closeBrace then d - 1 else d) buf

/-! ## Fetch pipeline (minecraftwifi.ino lines 196-279) -/

/-- The external collaborators of one cycle: whether the k-th connection
attempt succeeds, whether a response byte is available at the k-th poll,
the response body, and the external JSON deserializer. -/
structure FetchEnv where
  connect : Nat → Bool
  avail : Nat → Bool
  stream : List Char
  parse : List Char → Option Json

/-- The connection retry loop (lines 200-212): try, and on failure give up
once `--retries <= 0`. Returns success and the number of attempts made. -/
def connectLoop (connect : Nat → Bool) (attempt : Nat) (retries : Nat) :
    Bool × Nat :=
  if connect attempt then (true, attempt + 1)
  else if retries ≤ 1 then (false, attempt + 1)
  else connectLoop connect (attempt + 1) (retries - 1)
termination_by retries
decreasing_by omega

/-- The first-byte wait loop (lines 223-232): poll availability, sleeping
`RESPONSE_WAIT_INTERVAL_MS` between polls, until the remaining budget
`waitMs` runs out. Returns the successful poll index (or none on timeout)
and the number of polls made. `waitMs` only ever holds multiples of the
interval, so truncated subtraction agrees with the C `int` arithmetic. -/
def waitLoop (avail : Nat → Bool) (poll : Nat) (waitMs : Nat) :
    Option Nat × Nat :=
  if avail poll then (some poll, poll + 1)
  else if waitMs ≤ RESPONSE_WAIT_INTERVAL_MS then (none, poll + 1)
  else waitLoop avail (poll + 1) (waitMs - RESPONSE_WAIT_INTERVAL_MS)
termination_by waitMs
decreasing_by unfold RESPONSE_WAIT_INTERVAL_MS at *; omega

/-- Lines 267-278: `jsonDoc["players"] == NULL` (missing key or JSON null)
aborts with an error record; otherwise read the online count and sample
array with ArduinoJson's defaulting conversions. -/
def parseStatusDoc (doc : Json) : ServerStatus :=
  match doc.lookup ("players") with
  | none => ServerStatus.ofError
  | some Json.jnull => ServerStatus.ofError
  | some players =>
    { error := false
      numOnline := Json.asInt (players.lookup ("online"))
      playersSample := Json.asArr (players.lookup ("sample")) }

/-- `fetchServerStatus()`: connect with retries, await the first response
byte, extract the brace-delimited payload, deserialize, and validate the
presence field. Every failure returns `ServerStatus::ofError()`. -/
def fetchServerStatus (env : FetchEnv) : ServerStatus :=
  if (connectLoop env.connect 0 CONNECTION_RETRIES).1 = false then
    ServerStatus.ofError
  else if (waitLoop env.avail 0 MAX_RESPONSE_WAIT_TIME_MS).1 = none then
    ServerStatus.ofError
  else
    match (extract env.stream).1 with
    | none => ServerStatus.ofError
    | some buf =>
      match env.parse buf with
      | none => ServerStatus.ofError
      | some doc => parseStatusDoc doc

/-! ## The per-cycle roster update (minecraftwifi.ino lines 294-328) -/

/-- `status.playersSample[i][F("name")]` as a string; non-string entries
fall back to the empty string. -/
def sampleName (entry : Json) : String :=
  match entry.lookup ("name") with
  | some (Json.jstr s) => s
  | _ => ""

/-- The inner linear search of lines 310-315: set `isOnline` on the first
slot that matches the name and stop. -/
def markFirstMatch (roster : List PlayerLed) (name : String) : List PlayerLed :=
  match roster with
  | [] => []
  | p :: ps => if p.matches name then p.setOnline :: ps else p :: markFirstMatch ps name

/-- Index of the first slot matching a name, if any. -/
def firstMatchIdx (name : String) : List PlayerLed → Option Nat
  | [] => none
  | p :: ps => if p.matches name then some 0 else (firstMatchIdx name ps).map (· + 1)

/-- Lines 302-316: clear every slot's `isOnline`, then claim a slot for
each observed name in order. -/
def reconcile (roster : List PlayerLed) (names : List String) : List PlayerLed :=
  List.foldl markFirstMatch (roster.map PlayerLed.clearOnline) names

/-- The state part of the color pass of lines 318-324: each slot rolls
`isOnline` into `wasOnline`. -/
def updateRoster (roster : List PlayerLed) : List PlayerLed :=
  roster.map (fun p => (p.getColorAndUpdate).2)

/-- The color part of the same pass (the pass is pure per slot, so the two
projections commute with doing both in one sweep). -/
def rosterColors (roster : List PlayerLed) : List Nat :=
  roster.map (fun p => (p.getColorAndUpdate).1)

/-- The roster after one successful cycle on `names`. -/
def cycleRoster (roster : List PlayerLed) (names : List String) : List PlayerLed :=
  updateRoster (reconcile roster names)

/-- The colors shown by that cycle. -/
def cycleColors (roster : List PlayerLed) (names : List String) : List Nat :=
  rosterColors (reconcile roster names)

/-- One iteration of `loop()` (lines 294-328) given the fetched status:
on error only the red error indicator is strobed and the roster is left
alone; on success the roster is reconciled and per-slot colors computed. -/
def loopStep (roster : List PlayerLed) (status : ServerStatus) :
    List PlayerLed × (Nat ⊕ List Nat) :=
  if status.error then (roster, Sum.inl COLOR_ERROR)
  else
    let names := status.playersSample.map sampleName
    let r := reconcile roster names
    (updateRoster r, Sum.inr (rosterColors r))

/-! ## Concrete inputs used by witnesses and examples -/

/-- A balanced payload of 1025 brace-enclosed bytes, one over capacity. -/
def bigStream : List Char := openBrace :: List.replicate 1024 'a'

/-- The spec §8 extraction stream: headers, the status object, trailing
garbage. -/
def httpStream : List Char :=
  String.toList
    ("HTTP/1.1 200 OK\r\nContent-Type: application/json\r\nConnection: close\r\n\r\n\x7b\"players\":\x7b\"online\":2,\"sample\":[\x7b\"name\":\"Alice\"\x7d]\x7d\x7dtrailing-garbage")

/-- The payload the spec expects that stream to extract. -/
def jsonPayload : List Char :=
  String.toList
    ("\x7b\"players\":\x7b\"online\":2,\"sample\":[\x7b\"name\":\"Alice\"\x7d]\x7d\x7d")

/-- An environment whose connection and polls always fail. -/
def envAllFail : FetchEnv :=
  { connect := fun _ => false, avail := fun _ => false, stream := [], parse := fun _ => none }

/-- An environment that fetches fine but whose document has no
`players` field. -/
def envMissingField : FetchEnv :=
  { connect := fun _ => true
    avail := fun _ => true
    stream := [openBrace, closeBrace]
    parse := fun _ => some (Json.jobj [(("version"), Json.jnum 1)]) }

/-- An environment whose response body overflows the JSON buffer. -/
def envOverflow : FetchEnv :=
  { connect := fun _ => true, avail := fun _ => true, stream := bigStream, parse := fun _ => none }

/-! ## Shared lemmas -/

/-- `getColorAndUpdate` in closed form: the color is the transition table
applied to `(wasOnline, isOnline)` and the state rolls `isOnline` into
`wasOnline`. -/
theorem getColorAndUpdate_eq (p : PlayerLed) :
    p.getColorAndUpdate =
      (transitionColor p.wasOnline p.isOnline, ⟨p.name, p.isOnline, p.isOnline⟩) := by
  cases p with
  | mk n w o => cases w <;> cases o <;> rfl

/-- A wildcard slot matches every string. -/
theorem matches_wildcard (w o : Bool) (str : String) :
    PlayerLed.matches ⟨"", w, o⟩ str = true := by
  simp [PlayerLed.matches]

/-- A named slot matches exactly its own name. -/
theorem matches_named (n : String) (w o : Bool) (str : String) (h : n ≠ "") :
    PlayerLed.matches ⟨n, w, o⟩ str = (str == n) := by
  have hlen : n.length ≠ 0 := by
    cases n with
    | mk data =>
      cases data with
      | nil => exact absurd rfl h
      | cons c cs => simp [String.length]
  simp [PlayerLed.matches, hlen]

/-- `markFirstMatch` pointwise: the slot at the first matching index is
set online, all other slots are untouched. -/
theorem markFirstMatch_getElem? (roster : List PlayerLed) (name : String) (i : Nat) :
    (markFirstMatch roster name)[i]? =
      if firstMatchIdx name roster = some i then roster[i]?.map PlayerLed.setOnline
      else roster[i]? := by
  induction roster generalizing i with
  | nil => simp [markFirstMatch, firstMatchIdx]
  | cons p ps ih =>
    by_cases hm : p.matches name = true
    · cases i with
      | zero => simp [markFirstMatch, firstMatchIdx, hm]
      | succ j => simp [markFirstMatch, firstMatchIdx, hm]
    · cases i with
      | zero => simp [markFirstMatch, firstMatchIdx, hm]
      | succ j => simp [markFirstMatch, firstMatchIdx, hm, ih j]

/-- `PlayerLed.matches` only looks at the slot's name. -/
theorem matches_congr (p q : PlayerLed) (h : p.name = q.name) (str : String) :
    p.matches str = q.matches str := by
  simp [PlayerLed.matches, h]

/-- `firstMatchIdx` only looks at the slots' names. -/
theorem firstMatchIdx_congr (r r' : List PlayerLed)
    (h : r.map PlayerLed.name = r'.map PlayerLed.name) (name : String) :
    firstMatchIdx name r = firstMatchIdx name r' := by
  induction r generalizing r' with
  | nil =>
    cases r' with
    | nil => rfl
    | cons q qs => simp at h
  | cons p ps ih =>
    cases r' with
    | nil => simp at h
    | cons q qs =>
      simp only [List.map_cons, List.cons.injEq] at h
      rw [firstMatchIdx, firstMatchIdx, matches_congr p q h.1, ih qs h.2]

/-- `markFirstMatch` preserves every slot's name. -/
theorem markFirstMatch_names (roster : List PlayerLed) (name : String) :
    (markFirstMatch roster name).map PlayerLed.name = roster.map PlayerLed.name := by
  induction roster with
  | nil => rfl
  | cons p ps ih =>
    by_cases hm : p.matches name <;>
      simp [markFirstMatch, hm, PlayerLed.setOnline, ih]

/-- The fold of `markFirstMatch` over the observed names, pointwise: a slot
ends up online exactly when some observed name first-matches at its
index; nothing else about the slot changes. -/
theorem foldl_mark_getElem? (ns : List String) (r : List PlayerLed) (i : Nat) :
    (List.foldl markFirstMatch r ns)[i]? =
      r[i]?.map (fun p =>
        if ns.any (fun n => firstMatchIdx n r == some i) then p.setOnline else p) := by
  induction ns generalizing r with
  | nil =>
    cases h : r[i]? <;> simp [h]
  | cons n ns ih =>
    have hnames : ∀ m, firstMatchIdx m (markFirstMatch r n) = firstMatchIdx m r :=
      fun m => firstMatchIdx_congr _ _ (markFirstMatch_names r n) m
    simp only [List.foldl_cons, ih (markFirstMatch r n)]
    rw [markFirstMatch_getElem?]
    by_cases hfi : firstMatchIdx n r = some i
    · simp only [hfi, if_pos rfl, List.any_cons, hnames]
      cases h : r[i]? with
      | none => simp
      | some p =>
        simp only [Option.map_map, Option.map_some', beq_self_eq_true, Bool.true_or,
          if_pos, Function.comp]
        by_cases hany : ns.any (fun m => firstMatchIdx m r == some i) = true <;>
          simp [hany, PlayerLed.setOnline]
    · have hbeq : (firstMatchIdx n r == some i) = false := by
        simp [hfi]
      simp [hfi, hnames, hbeq]

/-- `reconcile`, pointwise: a slot keeps its name and `wasOnline`, and its
new `isOnline` says whether some observed name first-matches at its
index in the roster. -/
theorem reconcile_getElem? (r : List PlayerLed) (ns : List String) (i : Nat) :
    (reconcile r ns)[i]? =
      r[i]?.map (fun p =>
        ⟨p.name, p.wasOnline, ns.any (fun n => firstMatchIdx n r == some i)⟩) := by
  unfold reconcile
  rw [foldl_mark_getElem?]
  have hnames : (r.map PlayerLed.clearOnline).map PlayerLed.name = r.map PlayerLed.name := by
    simp [List.map_map, Function.comp, PlayerLed.clearOnline]
  have hfi : ∀ m, firstMatchIdx m (r.map PlayerLed.clearOnline) = firstMatchIdx m r :=
    fun m => firstMatchIdx_congr _ _ hnames m
  simp only [List.getElem?_map, Option.map_map, hfi]
  cases h : r[i]? with
  | none => rfl
  | some p =>
    simp only [Option.map_some', Function.comp]
    by_cases hany : ns.any (fun n => firstMatchIdx n r == some i) = true <;>
      simp [hany, PlayerLed.clearOnline, PlayerLed.setOnline]

/-- The code's extraction loop computes the amended spec-level loop: the
only difference between the two is instrumentation. -/
theorem extractLoop_fst (stream : List Char) :
    ∀ (d : Int) (buf : List Char) (w : List Nat),
      (extractLoop stream d buf w).1 = specExtractNe stream d buf := by
  induction stream with
  | nil => intro d buf w; rfl
  | cons b rest ih =>
    intro d buf w
    simp only [extractLoop, specExtractNe]
    by_cases h1 : (if b = openBrace then d + 1 else d) ≠ 0
    · rw [if_pos h1, if_pos h1]
      by_cases h2 : MAX_JSON_SIZE ≤ (buf ++ [b]).length
      · rw [if_pos h2, if_pos h2]
      · rw [if_neg h2, if_neg h2]
        exact ih _ _ _
    · rw [if_neg h1, if_neg h1]
      exact ih _ _ _

/-- Every index the loop writes stays below capacity, given that it starts
that way. -/
theorem extractLoop_writes_lt (stream : List Char) :
    ∀ (d : Int) (buf : List Char) (w : List Nat),
      buf.length < MAX_JSON_SIZE → (∀ j ∈ w, j < MAX_JSON_SIZE) →
      ∀ i ∈ (extractLoop stream d buf w).2, i < MAX_JSON_SIZE := by
  induction stream with
  | nil => intro d buf w hb hw i hi; exact hw i hi
  | cons b rest ih =>
    intro d buf w hb hw i hi
    simp only [extractLoop] at hi
    by_cases h1 : (if b = openBrace then d + 1 else d) ≠ 0
    · rw [if_pos h1] at hi
      by_cases h2 : MAX_JSON_SIZE ≤ (buf ++ [b]).length
      · rw [if_pos h2] at hi
        simp only [List.mem_append, List.mem_singleton] at hi
        rcases hi with hi | hi
        · exact hw i hi
        · omega
      · rw [if_neg h2] at hi
        refine ih _ _ _ ?_ ?_ i hi
        · simp only [List.length_append, List.length_singleton] at h2 ⊢
          omega
        · intro j hj
          simp only [List.mem_append, List.mem_singleton] at hj
          rcases hj with hj | hj
          · exact hw j hj
          · omega
    · rw [if_neg h1] at hi
      exact ih _ _ _ hb hw i hi

/-- If the bytes the loop wants to append reach capacity, it bails out
with the overflow result. -/
theorem extractLoop_overflow (stream : List Char) :
    ∀ (d : Int) (buf : List Char) (w : List Nat),
      buf.length < MAX_JSON_SIZE →
      MAX_JSON_SIZE ≤ buf.length + appendCount stream d →
      (extractLoop stream d buf w).1 = none := by
  induction stream with
  | nil =>
    intro d buf w hb hc
    simp only [appendCount] at hc
    omega
  | cons b rest ih =>
    intro d buf w hb hc
    simp only [extractLoop]
    simp only [appendCount] at hc
    by_cases h1 : (if b = openBrace then d + 1 else d) ≠ 0
    · rw [if_pos h1]
      rw [if_pos h1] at hc
      by_cases h2 : MAX_JSON_SIZE ≤ (buf ++ [b]).length
      · rw [if_pos h2]
      · rw [if_neg h2]
        refine ih _ _ _ ?_ ?_
        · simp only [List.length_append, List.length_singleton] at h2 ⊢
          omega
        · simp only [List.length_append, List.length_singleton]
          omega
    · rw [if_neg h1]
      rw [if_neg h1] at hc
      exact ih _ _ _ hb (by omega)

/-- A successfully extracted buffer is strictly below capacity, so the
final null-terminator write at `jsonBuffer[jsonBufferPos]` is in bounds
too. -/
theorem extractLoop_ok_length (stream : List Char) :
    ∀ (d : Int) (buf : List Char) (w : List Nat) (out : List Char),
      buf.length < MAX_JSON_SIZE →
      (extractLoop stream d buf w).1 = some out → out.length < MAX_JSON_SIZE := by
  induction stream with
  | nil =>
    intro d buf w out hb hout
    cases hout
    exact hb
  | cons b rest ih =>
    intro d buf w out hb hout
    simp only [extractLoop] at hout
    by_cases h1 : (if b = openBrace then d + 1 else d) ≠ 0
    · rw [if_pos h1] at hout
      by_cases h2 : MAX_JSON_SIZE ≤ (buf ++ [b]).length
      · rw [if_pos h2] at hout
        cases hout
      · rw [if_neg h2] at hout
        refine ih _ _ _ _ ?_ hout
        simp only [List.length_append, List.length_singleton] at h2 ⊢
        omega
    · rw [if_neg h1] at hout
      exact ih _ _ _ _ hb hout

/-- A cycle whose extraction overflowed never reaches the parser: the
fetch returns the error record straight away. -/
theorem fetch_of_extract_none (env : FetchEnv)
    (h : (extract env.stream).1 = none) :
    fetchServerStatus env = ServerStatus.ofError := by
  simp [fetchServerStatus, h]

/-- Counting appended bytes over the all-`'a'` tail of `bigStream`. -/
theorem appendCount_replicate (k : Nat) :
    appendCount (List.replicate k 'a') 1 = k := by
  have ha : ('a' : Char) ≠ openBrace := by decide
  have hc : ('a' : Char) ≠ closeBrace := by decide
  induction k with
  | zero => rfl
  | succ m ih =>
    simp [List.replicate_succ, appendCount, ha, hc, ih]
    omega

/-- Opening brace at depth 0: one byte appended, depth becomes 1. -/
theorem appendCount_open (rest : List Char) :
    appendCount (openBrace :: rest) 0 = 1 + appendCount rest 1 := by
  have hoc : openBrace ≠ closeBrace := by decide
  simp [appendCount, hoc]

/-- `bigStream` wants to append one byte more than the buffer holds. -/
theorem bigStream_overflow_count : MAX_JSON_SIZE < appendCount bigStream 0 := by
  show MAX_JSON_SIZE < appendCount (openBrace :: List.replicate 1024 'a') 0
  rw [appendCount_open, appendCount_replicate]
  decide

/-- A successful attempt ends the retry loop at once. -/
theorem connectLoop_succ_true (c : Nat → Bool) (a r : Nat) (hc : c a = true) :
    connectLoop c a r = (true, a + 1) := by
  rw [connectLoop, if_pos hc]

/-- A failed attempt with budget left moves to the next attempt. -/
theorem connectLoop_step (c : Nat → Bool) (a r : Nat) (hr : 2 ≤ r)
    (hc : c a = false) :
    connectLoop c a r = connectLoop c (a + 1) (r - 1) := by
  rw [connectLoop, if_neg (by simp [hc]), if_neg (by omega)]

/-- A failed attempt on the last budget unit gives up. -/
theorem connectLoop_exhaust (c : Nat → Bool) (a r : Nat) (hc : c a = false)
    (hr : r ≤ 1) :
    connectLoop c a r = (false, a + 1) := by
  rw [connectLoop, if_neg (by simp [hc]), if_pos hr]

/-- The retry loop makes at most `retries` attempts. -/
theorem connectLoop_count (c : Nat → Bool) :
    ∀ r a : Nat, 1 ≤ r → (connectLoop c a r).2 ≤ a + r := by
  intro r
  induction r using Nat.strong_induction_on with
  | _ r ih =>
    intro a hr
    cases hc : c a with
    | true => rw [connectLoop_succ_true c a r hc]; omega
    | false =>
      by_cases h1 : r ≤ 1
      · rw [connectLoop_exhaust c a r hc h1]; omega
      · rw [connectLoop_step c a r (by omega) hc]
        have := ih (r - 1) (by omega) (a + 1) (by omega)
        omega

/-- The retry loop reports failure only when all three attempts failed. -/
theorem connectLoop_false_all (c : Nat → Bool)
    (h : (connectLoop c 0 CONNECTION_RETRIES).1 = false) :
    c 0 = false ∧ c 1 = false ∧ c 2 = false := by
  have hCR : CONNECTION_RETRIES = 3 := rfl
  rw [hCR] at h
  cases h0 : c 0 with
  | true => rw [connectLoop_succ_true c 0 3 h0] at h; simp at h
  | false =>
    rw [connectLoop_step c 0 3 (by omega) h0] at h
    norm_num at h
    cases h1 : c 1 with
    | true => rw [connectLoop_succ_true c 1 2 h1] at h; simp at h
    | false =>
      rw [connectLoop_step c 1 2 (by omega) h1] at h
      norm_num at h
      cases h2 : c 2 with
      | true => rw [connectLoop_succ_true c 2 1 h2] at h; simp at h
      | false => exact ⟨rfl, rfl, rfl⟩

/-- When no attempt ever succeeds the retry loop reports failure. -/
theorem connectLoop_const_false :
    ∀ r a : Nat, (connectLoop (fun _ => false) a r).1 = false := by
  intro r
  induction r using Nat.strong_induction_on with
  | _ r ih =>
    intro a
    by_cases h1 : r ≤ 1
    · rw [connectLoop_exhaust _ a r rfl h1]
    · rw [connectLoop_step _ a r (by omega) rfl]
      exact ih (r - 1) (by omega) (a + 1)

/-- An available first byte ends the wait loop at once. -/
theorem waitLoop_avail (a : Nat → Bool) (p w : Nat) (ha : a p = true) :
    waitLoop a p w = (some p, p + 1) := by
  rw [waitLoop, if_pos ha]

/-- No byte and an exhausted budget time the wait loop out. -/
theorem waitLoop_timeout (a : Nat → Bool) (p w : Nat) (ha : a p = false)
    (hw : w ≤ RESPONSE_WAIT_INTERVAL_MS) :
    waitLoop a p w = (none, p + 1) := by
  rw [waitLoop, if_neg (by simp [ha]), if_pos hw]

/-- No byte with budget left: sleep one interval and poll again. -/
theorem waitLoop_step (a : Nat → Bool) (p w : Nat) (ha : a p = false)
    (hw : ¬w ≤ RESPONSE_WAIT_INTERVAL_MS) :
    waitLoop a p w = waitLoop a (p + 1) (w - RESPONSE_WAIT_INTERVAL_MS) := by
  rw [waitLoop, if_neg (by simp [ha]), if_neg hw]

/-- The wait loop makes at most `⌈waitMs / interval⌉` polls (counted from
the starting poll index). -/
theorem waitLoop_polls (a : Nat → Bool) :
    ∀ w p : Nat,
      (waitLoop a p w).2 ≤ p + (w - 1) / RESPONSE_WAIT_INTERVAL_MS + 1 := by
  intro w
  induction w using Nat.strong_induction_on with
  | _ w ih =>
    intro p
    cases ha : a p with
    | true =>
      rw [waitLoop_avail a p w ha]
      simp only [RESPONSE_WAIT_INTERVAL_MS]
      omega
    | false =>
      by_cases hw : w ≤ RESPONSE_WAIT_INTERVAL_MS
      · rw [waitLoop_timeout a p w ha hw]
        simp only [RESPONSE_WAIT_INTERVAL_MS]
        omega
      · rw [waitLoop_step a p w ha hw]
        have hlt : w - RESPONSE_WAIT_INTERVAL_MS < w := by
          simp only [RESPONSE_WAIT_INTERVAL_MS] at hw ⊢
          omega
        have := ih (w - RESPONSE_WAIT_INTERVAL_MS) hlt (p + 1)
        simp only [RESPONSE_WAIT_INTERVAL_MS] at this hw ⊢
        omega

/-- When no byte ever arrives the wait loop times out. -/
theorem waitLoop_const_false :
    ∀ w p : Nat, (waitLoop (fun _ => false) p w).1 = none := by
  intro w
  induction w using Nat.strong_induction_on with
  | _ w ih =>
    intro p
    by_cases hw : w ≤ RESPONSE_WAIT_INTERVAL_MS
    · rw [waitLoop_timeout _ p w rfl hw]
    · rw [waitLoop_step _ p w rfl hw]
      have hlt : w - RESPONSE_WAIT_INTERVAL_MS < w := by
        simp only [RESPONSE_WAIT_INTERVAL_MS] at hw ⊢
        omega
      exact ih (w - RESPONSE_WAIT_INTERVAL_MS) hlt (p + 1)

/-- Exhausted connection retries return the error record. -/
theorem fetch_of_connect_false (env : FetchEnv)
    (h : (connectLoop env.connect 0 CONNECTION_RETRIES).1 = false) :
    fetchServerStatus env = ServerStatus.ofError := by
  simp [fetchServerStatus, h]

/-- A first-byte timeout returns the error record. -/
theorem fetch_of_wait_none (env : FetchEnv)
    (h : (waitLoop env.avail 0 MAX_RESPONSE_WAIT_TIME_MS).1 = none) :
    fetchServerStatus env = ServerStatus.ofError := by
  simp [fetchServerStatus, h]

/-- A deserializer failure returns the error record. -/
theorem fetch_of_parse_none (env : FetchEnv) (buf : List Char)
    (hbuf : (extract env.stream).1 = some buf) (hp : env.parse buf = none) :
    fetchServerStatus env = ServerStatus.ofError := by
  simp [fetchServerStatus, hbuf, hp]

/-- A document without the `players` field yields the error record. -/
theorem parseStatusDoc_missing (doc : Json)
    (h : doc.lookup ("players") = none) :
    parseStatusDoc doc = ServerStatus.ofError := by
  simp [parseStatusDoc, h]

/-! ## Claims -/

/-- C1: `getColorAndUpdate` returns the color determined solely by the
pair `(wasOnline, isOnline)` at entry — `(true, true) ↦ COLOR_ONLINE`
(SteadyPresent), `(true, false) ↦ COLOR_LEFT` (JustLeft),
`(false, true) ↦ COLOR_JOINED` (JustJoined), `(false, false) ↦ COLOR_OFF`
(Off) — and afterwards `wasOnline` equals the value `isOnline` had at
entry. -/
theorem c1_getColorAndUpdate (p : PlayerLed) :
    p.getColorAndUpdate =
      (transitionColor p.wasOnline p.isOnline, ⟨p.name, p.isOnline, p.isOnline⟩)
    ∧ transitionColor true true = COLOR_ONLINE
    ∧ transitionColor true false = COLOR_LEFT
    ∧ transitionColor false true = COLOR_JOINED
    ∧ transitionColor false false = COLOR_OFF :=
  ⟨getColorAndUpdate_eq p, rfl, rfl, rfl, rfl⟩

/-- C2: a wildcard (empty-name) slot matches every name and a named slot
matches only the exact string; each observed name sets `isOnline` on
exactly the first slot whose identity matches (scanning in declaration
order) and leaves every other slot untouched; over a whole cycle a slot is
online exactly when some observed name first-matches at its index; and on
roster `[Wildcard, "Alice"]` with observed `["Alice"]` the wildcard slot is
claimed while the `"Alice"` slot stays unclaimed. -/
theorem c2_firstMatchWins :
    (∀ (w o : Bool) (str : String), PlayerLed.matches ⟨"", w, o⟩ str = true)
    ∧ (∀ (n : String) (w o : Bool) (str : String), n ≠ "" →
        PlayerLed.matches ⟨n, w, o⟩ str = (str == n))
    ∧ (∀ (roster : List PlayerLed) (name : String) (i : Nat),
        (markFirstMatch roster name)[i]? =
          if firstMatchIdx name roster = some i then roster[i]?.map PlayerLed.setOnline
          else roster[i]?)
    ∧ (∀ (roster : List PlayerLed) (ns : List String) (i : Nat),
        (reconcile roster ns)[i]? =
          roster[i]?.map (fun p =>
            ⟨p.name, p.wasOnline, ns.any (fun n => firstMatchIdx n roster == some i)⟩))
    ∧ reconcile [⟨"", false, false⟩, ⟨"Alice", false, false⟩] ["Alice"] =
        [⟨"", false, true⟩, ⟨"Alice", false, false⟩] :=
  ⟨matches_wildcard, fun n w o str h => matches_named n w o str h,
    markFirstMatch_getElem?, reconcile_getElem?, by decide⟩

/-- C2 witness: the named-slot clause instantiated at name `"Alice"`
against observed string `"Bob"`. -/
theorem c2_witness :
    ("Alice" : String) ≠ ""
    ∧ PlayerLed.matches ⟨"Alice", false, false⟩ ("Bob") = (("Bob" : String) == "Alice") :=
  ⟨by decide, c2_firstMatchWins.2.1 "Alice" false false "Bob" (by decide)⟩

/-- C3 counterexample: the claim says a byte is appended iff the depth is
strictly positive at the check point, but the code tests `if (inBraces)`,
i.e. depth ≠ 0. On the stream `"}a"` the depth is -1 when `'a'` arrives:
the code appends it, the claimed `depth > 0` loop does not. -/
theorem c3_counterexample :
    (extract [closeBrace, 'a']).1 = some ['a']
    ∧ specExtractGt [closeBrace, 'a'] 0 [] = some []
    ∧ (extract [closeBrace, 'a']).1 ≠ specExtractGt [closeBrace, 'a'] 0 [] :=
  ⟨by decide, by decide, by decide⟩

/-- C3 amended: for every input byte stream the extraction loop maintains
an integer depth starting at 0 and, for each byte b: increments depth if b
is `{`, then appends b to the output buffer if and only if depth ≠ 0 at
that point (the counter can go negative when a `}` precedes every `{`;
on streams where it stays nonnegative this is the claimed depth > 0), then
decrements depth if b is `}` — so the closing brace that brings depth to 0
is still appended. `specExtractNe` is that amended description verbatim. -/
theorem c3_amended (stream : List Char) :
    (extract stream).1 = specExtractNe stream 0 [] :=
  extractLoop_fst stream 0 [] []

/-- C4: extraction never writes a data byte at a buffer index at or past
`MAX_JSON_SIZE`; when the bytes to append would exceed capacity the loop
signals overflow (result `none`) and abandons the cycle; an accepted
buffer stays strictly below capacity (so the closing `'\0'` write is in
bounds as well); and an overflowing cycle hands no partial buffer to the
parser — the whole fetch returns the error record. -/
theorem c4_overflowSafety :
    (∀ (stream : List Char) (i : Nat), i ∈ (extract stream).2 → i < MAX_JSON_SIZE)
    ∧ (∀ stream : List Char,
        MAX_JSON_SIZE < appendCount stream 0 → (extract stream).1 = none)
    ∧ (∀ stream out : List Char,
        (extract stream).1 = some out → out.length < MAX_JSON_SIZE)
    ∧ (∀ env : FetchEnv,
        (extract env.stream).1 = none → fetchServerStatus env = ServerStatus.ofError) :=
  ⟨fun stream i hi => extractLoop_writes_lt stream 0 [] [] (by decide) (by simp) i hi,
    fun stream h => extractLoop_overflow stream 0 [] [] (by decide) (by omega),
    fun stream out h => extractLoop_ok_length stream 0 [] [] out (by decide) h,
    fun env h => fetch_of_extract_none env h⟩

/-- C4 witness: a two-byte balanced stream exercises the in-bounds and
accepted-buffer clauses; `bigStream` (1025 brace-enclosed bytes) exercises
the overflow and no-parse clauses. -/
theorem c4_witness :
    (0 ∈ (extract [openBrace, closeBrace]).2 ∧ 0 < MAX_JSON_SIZE)
    ∧ (MAX_JSON_SIZE < appendCount bigStream 0 ∧ (extract bigStream).1 = none)
    ∧ ((extract [openBrace, closeBrace]).1 = some [openBrace, closeBrace]
        ∧ ([openBrace, closeBrace] : List Char).length < MAX_JSON_SIZE)
    ∧ ((extract envOverflow.stream).1 = none
        ∧ fetchServerStatus envOverflow = ServerStatus.ofError) := by
  have hmem : 0 ∈ (extract [openBrace, closeBrace]).2 := by decide
  have hsome : (extract [openBrace, closeBrace]).1 = some [openBrace, closeBrace] := by decide
  have hcnt : MAX_JSON_SIZE < appendCount bigStream 0 := bigStream_overflow_count
  have hnone : (extract bigStream).1 = none := c4_overflowSafety.2.1 bigStream hcnt
  have hnone' : (extract envOverflow.stream).1 = none := hnone
  exact ⟨⟨hmem, c4_overflowSafety.1 _ 0 hmem⟩, ⟨hcnt, hnone⟩,
    ⟨hsome, c4_overflowSafety.2.2.1 _ _ hsome⟩,
    ⟨hnone', c4_overflowSafety.2.2.2 envOverflow hnone'⟩⟩

/-- C5: a cycle whose fetch/extract/parse failed leaves every slot exactly
as it was — the error branch of `loop()` only strobes the error color and
performs no operation on any slot. -/
theorem c5_frozenOnFailure (roster : List PlayerLed) (status : ServerStatus)
    (h : status.error = true) :
    loopStep roster status = (roster, Sum.inl COLOR_ERROR) := by
  simp [loopStep, h]

/-- C5 witness: a concrete one-slot roster with `wasOnline = true`,
`isOnline = false` survives an error cycle untouched. -/
theorem c5_witness :
    ServerStatus.ofError.error = true
    ∧ loopStep [⟨"Alice", true, false⟩] ServerStatus.ofError =
        ([⟨"Alice", true, false⟩], Sum.inl COLOR_ERROR) :=
  ⟨rfl, c5_frozenOnFailure _ _ rfl⟩

/-- C6: across two consecutive successful cycles, the color a slot shows on
the second cycle is the transition table applied to (matched in cycle 1,
matched in cycle 2), where "matched" is the slot's `isOnline` after that
cycle's reconcile. Instantiating: matched both times (in particular with
identical observed lists) gives COLOR_ONLINE (SteadyPresent), matched
neither time gives COLOR_OFF (Off), unmatched-then-matched gives
COLOR_JOINED (JustJoined), matched-then-unmatched gives COLOR_LEFT
(JustLeft); re-applying the theorem at the next cycle gives SteadyPresent
at N+2 when the slot stays matched. -/
theorem c6_transitions (roster : List PlayerLed) (ns1 ns2 : List String) (i : Nat) :
    (cycleColors (cycleRoster roster ns1) ns2)[i]? =
      Option.map₂ (fun p1 p2 => transitionColor p1.isOnline p2.isOnline)
        ((reconcile roster ns1)[i]?) ((reconcile (cycleRoster roster ns1) ns2)[i]?) := by
  unfold cycleColors rosterColors cycleRoster updateRoster
  rw [List.getElem?_map,
    reconcile_getElem? ((reconcile roster ns1).map fun p => (p.getColorAndUpdate).2) ns2 i,
    List.getElem?_map, reconcile_getElem? roster ns1 i]
  cases h : roster[i]? with
  | none => rfl
  | some p => simp [getColorAndUpdate_eq, Option.map₂]

set_option maxRecDepth 16384 in
/-- C8: on the spec's concrete HTTP response stream — headers, then the
status object, then trailing garbage — extraction yields exactly the
payload `\x7b"players":\x7b"online":2,"sample":[\x7b"name":"Alice"\x7d]\x7d\x7d`;
every header byte before the first opening brace and every byte after the
matching top-level closing brace is discarded. -/
theorem c8_extractionExample : (extract httpStream).1 = some jsonPayload := by
  rfl

/-- C10: the isOnline flags produced by the reconcile phase depend only on
the set of observed names — two observed lists with the same members (any
permutation, any duplication) produce identical per-slot flags. -/
theorem c10_orderInvariance (roster : List PlayerLed) (ns1 ns2 : List String)
    (h : ∀ n, n ∈ ns1 ↔ n ∈ ns2) :
    (reconcile roster ns1).map PlayerLed.isOnline
      = (reconcile roster ns2).map PlayerLed.isOnline := by
  apply List.ext_getElem?
  intro i
  rw [List.getElem?_map, List.getElem?_map, reconcile_getElem?, reconcile_getElem?]
  cases hr : roster[i]? with
  | none => rfl
  | some p =>
    have hiff : (ns1.any (fun n => firstMatchIdx n roster == some i) = true)
        ↔ (ns2.any (fun n => firstMatchIdx n roster == some i) = true) := by
      simp only [List.any_eq_true]
      constructor
      · rintro ⟨n, hn, hf⟩
        exact ⟨n, (h n).1 hn, hf⟩
      · rintro ⟨n, hn, hf⟩
        exact ⟨n, (h n).2 hn, hf⟩
    have hany : ns1.any (fun n => firstMatchIdx n roster == some i)
        = ns2.any (fun n => firstMatchIdx n roster == some i) := by
      cases h1 : ns1.any (fun n => firstMatchIdx n roster == some i) with
      | true => exact (hiff.1 h1).symm
      | false =>
        cases h2 : ns2.any (fun n => firstMatchIdx n roster == some i) with
        | true => rw [← h1, hiff.2 h2]
        | false => rfl
    simp [hany]

/-- C10 witness: permuting and duplicating the observed names over a
two-slot roster (a named slot and a wildcard) leaves the flags alike. -/
theorem c10_witness :
    (∀ n : String, n ∈ ["Alice", "Bob"] ↔ n ∈ ["Bob", "Alice", "Alice"])
    ∧ (reconcile [⟨"Bob", false, false⟩, ⟨"", false, false⟩]
          ["Alice", "Bob"]).map PlayerLed.isOnline
      = (reconcile [⟨"Bob", false, false⟩, ⟨"", false, false⟩]
          ["Bob", "Alice", "Alice"]).map PlayerLed.isOnline := by
  have hmem : ∀ n : String, n ∈ ["Alice", "Bob"] ↔ n ∈ ["Bob", "Alice", "Alice"] := by
    intro n
    simp only [List.mem_cons, List.not_mem_nil, or_false]
    tauto
  exact ⟨hmem, c10_orderInvariance _ _ _ hmem⟩

/-- C7: every failure path — connection retries exhausted, first-byte
timeout, buffer overflow, deserializer failure, missing `players` field —
returns the `ofError` record, and that record has `error = true`,
`numOnline = 0` and an empty `playersSample`; in particular a successfully
parsed document lacking the presence field yields that failed record. -/
theorem c7_failureRecord (env : FetchEnv) :
    ((connectLoop env.connect 0 CONNECTION_RETRIES).1 = false →
        fetchServerStatus env = ServerStatus.ofError)
    ∧ ((waitLoop env.avail 0 MAX_RESPONSE_WAIT_TIME_MS).1 = none →
        fetchServerStatus env = ServerStatus.ofError)
    ∧ ((extract env.stream).1 = none → fetchServerStatus env = ServerStatus.ofError)
    ∧ (∀ buf : List Char, (extract env.stream).1 = some buf →
        env.parse buf = none → fetchServerStatus env = ServerStatus.ofError)
    ∧ (∀ doc : Json, doc.lookup ("players") = none →
        parseStatusDoc doc = ServerStatus.ofError)
    ∧ (∀ (buf : List Char) (doc : Json), (extract env.stream).1 = some buf →
        env.parse buf = some doc → doc.lookup ("players") = none →
        fetchServerStatus env = ServerStatus.ofError)
    ∧ ServerStatus.ofError.error = true
    ∧ ServerStatus.ofError.numOnline = 0
    ∧ ServerStatus.ofError.playersSample = [] := by
  refine ⟨fetch_of_connect_false env, fetch_of_wait_none env,
    fetch_of_extract_none env, fetch_of_parse_none env,
    parseStatusDoc_missing, ?_, rfl, rfl, rfl⟩
  intro buf doc hbuf hp hlk
  simp [fetchServerStatus, hbuf, hp, parseStatusDoc_missing doc hlk]

/-- C7 witness: an all-failing environment exercises the connection-failed
path; a well-behaved fetch whose document is `\x7b"version":1\x7d`
exercises the missing-presence-field path. -/
theorem c7_witness :
    ((connectLoop envAllFail.connect 0 CONNECTION_RETRIES).1 = false
      ∧ fetchServerStatus envAllFail = ServerStatus.ofError)
    ∧ (Json.lookup (Json.jobj [(("version"), Json.jnum 1)]) ("players") = none
      ∧ parseStatusDoc (Json.jobj [(("version"), Json.jnum 1)]) = ServerStatus.ofError)
    ∧ ((extract envMissingField.stream).1 = some [openBrace, closeBrace]
      ∧ envMissingField.parse [openBrace, closeBrace]
          = some (Json.jobj [(("version"), Json.jnum 1)])
      ∧ fetchServerStatus envMissingField = ServerStatus.ofError) := by
  have hc : (connectLoop envAllFail.connect 0 CONNECTION_RETRIES).1 = false :=
    connectLoop_const_false CONNECTION_RETRIES 0
  have hbuf : (extract envMissingField.stream).1 = some [openBrace, closeBrace] := by
    decide
  have hp : envMissingField.parse [openBrace, closeBrace]
      = some (Json.jobj [(("version"), Json.jnum 1)]) := rfl
  have hlk : Json.lookup (Json.jobj [(("version"), Json.jnum 1)]) ("players") = none := rfl
  exact ⟨⟨hc, (c7_failureRecord envAllFail).1 hc⟩,
    ⟨hlk, (c7_failureRecord envAllFail).2.2.2.2.1 _ hlk⟩,
    ⟨hbuf, hp, (c7_failureRecord envMissingField).2.2.2.2.2.1 _ _ hbuf hp hlk⟩⟩

/-- C9: the connection is attempted at most `CONNECTION_RETRIES` (3) times
and a failed record comes only after all three attempts failed; the
first-byte wait polls at most `MAX_RESPONSE_WAIT_TIME_MS /
RESPONSE_WAIT_INTERVAL_MS` (300) times and an exhausted budget yields the
failed record. Both loops are total functions, so they terminate on every
input. -/
theorem c9_boundedRetries (env : FetchEnv) :
    (connectLoop env.connect 0 CONNECTION_RETRIES).2 ≤ CONNECTION_RETRIES
    ∧ ((connectLoop env.connect 0 CONNECTION_RETRIES).1 = false →
        env.connect 0 = false ∧ env.connect 1 = false ∧ env.connect 2 = false
        ∧ fetchServerStatus env = ServerStatus.ofError)
    ∧ (waitLoop env.avail 0 MAX_RESPONSE_WAIT_TIME_MS).2
        ≤ MAX_RESPONSE_WAIT_TIME_MS / RESPONSE_WAIT_INTERVAL_MS
    ∧ ((waitLoop env.avail 0 MAX_RESPONSE_WAIT_TIME_MS).1 = none →
        fetchServerStatus env = ServerStatus.ofError) := by
  refine ⟨?_, ?_, ?_, fetch_of_wait_none env⟩
  · have := connectLoop_count env.connect CONNECTION_RETRIES 0 (by decide)
    omega
  · intro h
    obtain ⟨h0, h1, h2⟩ := connectLoop_false_all env.connect h
    exact ⟨h0, h1, h2, fetch_of_connect_false env h⟩
  · have := waitLoop_polls env.avail MAX_RESPONSE_WAIT_TIME_MS 0
    simp only [MAX_RESPONSE_WAIT_TIME_MS, RESPONSE_WAIT_INTERVAL_MS] at this ⊢
    omega

/-- C9 witness: with every attempt and every poll failing, the retry loop
reports failure after the three attempts and the wait loop times out, and
the cycle ends in the failed record. -/
theorem c9_witness :
    ((connectLoop envAllFail.connect 0 CONNECTION_RETRIES).1 = false
      ∧ envAllFail.connect 0 = false ∧ envAllFail.connect 1 = false
      ∧ envAllFail.connect 2 = false
      ∧ fetchServerStatus envAllFail = ServerStatus.ofError)
    ∧ ((waitLoop envAllFail.avail 0 MAX_RESPONSE_WAIT_TIME_MS).1 = none
      ∧ fetchServerStatus envAllFail = ServerStatus.ofError) := by
  have hc : (connectLoop envAllFail.connect 0 CONNECTION_RETRIES).1 = false :=
    connectLoop_const_false CONNECTION_RETRIES 0
  have hw : (waitLoop envAllFail.avail 0 MAX_RESPONSE_WAIT_TIME_MS).1 = none :=
    waitLoop_const_false MAX_RESPONSE_WAIT_TIME_MS 0
  obtain ⟨h0, h1, h2, hf⟩ := (c9_boundedRetries envAllFail).2.1 hc
  exact ⟨⟨hc, h0, h1, h2, hf⟩, ⟨hw, (c9_boundedRetries envAllFail).2.2.2 hw⟩⟩

end MinecraftWifi
